import Mathlib

/-!
Verification of `update_deployment_toml.py` (boundless-xyz/zkc).

The script is a single `main` function: it parses CLI flags, loads
`deployment.toml`, validates the chain key, applies the supplied field
updates (underscore-to-hyphen renaming, whitespace stripping) to
`deployment[chain_key]`, writes the document back, and reports.

Shallow embedding: the TOML document becomes nested association lists
(`tomlkit` preserves insertion order, like Python dicts); dictionary
assignment `d[k] = v` becomes `setKey` (replace in place, else append);
the filesystem becomes a `FileState` (absent / unparseable / parsed);
`main` becomes the pure function `runMain` from arguments and the file
state to an exit code, the resulting file state, and the two output
streams.
-/

namespace UpdateDeploymentToml

/-- A scalar TOML value in a chain table.  The script only ever writes
string values (argparse flag values are strings); pre-existing fields of
any other type are modelled by the opaque constructor `other`. -/
inductive TomlVal where
  | str (s : String)
  | other (tag : Nat)
deriving DecidableEq, Repr

/-- A per-chain table: field name (hyphenated, as on disk) to value,
in file order. -/
abbrev ChainTable := List (String × TomlVal)

/-- The `deployment` section: chain key to per-chain table, in file order. -/
abbrev DeploymentTable := List (String × ChainTable)

/-- The whole document.  `deployment?` is `none` when the document has no
`deployment` section; `others` models every other top-level entry of the
document (the script never touches them). -/
structure Doc where
  deployment? : Option DeploymentTable
  others : List (String × TomlVal)
deriving DecidableEq, Repr

/-- The state of `deployment.toml` on disk: missing, present but not
parseable by tomlkit, or parsed to a document. -/
inductive FileState where
  | absent
  | invalid
  | parsed (d : Doc)
deriving DecidableEq, Repr

/-- Python dict lookup `l[k]` (as an option), on an association list. -/
def getKey {α : Type} : List (String × α) → String → Option α
  | [], _ => none
  | (k', v) :: rest, k => if k' = k then some v else getKey rest k

/-- Python dict assignment `d[k] = v`: replace the value of an existing
key in place, otherwise append the new pair at the end (insertion order,
as Python dicts and tomlkit tables behave). -/
def setKey {α : Type} : List (String × α) → String → α → List (String × α)
  | [], k, v => [(k, v)]
  | (k', v') :: rest, k, v =>
      if k' = k then (k, v) :: rest else (k', v') :: setKey rest k v

/-- The command-line arguments after argparse: the chain key (default
`anvil`) and one optional string per recognized flag, named as in the
script's `field_mappings` dict. -/
structure Args where
  chain_key : String := "anvil"
  admin : Option String := none
  zkc_admin : Option String := none
  zkc_admin_2 : Option String := none
  vezkc_admin : Option String := none
  vezkc_admin_2 : Option String := none
  staking_rewards_admin : Option String := none
  staking_rewards_admin_2 : Option String := none
  supply_calculator_admin_2 : Option String := none
  zkc : Option String := none
  zkc_impl : Option String := none
  zkc_impl_prev : Option String := none
  zkc_deployer : Option String := none
  vezkc : Option String := none
  vezkc_impl : Option String := none
  vezkc_impl_prev : Option String := none
  vezkc_deployer : Option String := none
  staking_rewards : Option String := none
  staking_rewards_impl : Option String := none
  staking_rewards_impl_prev : Option String := none
  staking_rewards_deployer : Option String := none
  povw_minter : Option String := none
  staking_minter : Option String := none
  supply_calculator : Option String := none
  supply_calculator_impl : Option String := none
  supply_calculator_admin : Option String := none
  zkc_commit : Option String := none
  vezkc_commit : Option String := none
  staking_rewards_commit : Option String := none
  supply_calculator_commit : Option String := none
  rpc_url : Option String := none
  etherscan_api_key : Option String := none
deriving Repr

/-- The `field_mappings` dict of the script, in its insertion order:
logical field name (underscored) paired with the flag's value. -/
def field_mappings (a : Args) : List (String × Option String) :=
  [("admin", a.admin),
   ("zkc_admin", a.zkc_admin),
   ("zkc_admin_2", a.zkc_admin_2),
   ("vezkc_admin", a.vezkc_admin),
   ("vezkc_admin_2", a.vezkc_admin_2),
   ("staking_rewards_admin", a.staking_rewards_admin),
   ("staking_rewards_admin_2", a.staking_rewards_admin_2),
   ("supply_calculator_admin_2", a.supply_calculator_admin_2),
   ("zkc", a.zkc),
   ("zkc_impl", a.zkc_impl),
   ("zkc_impl_prev", a.zkc_impl_prev),
   ("zkc_deployer", a.zkc_deployer),
   ("vezkc", a.vezkc),
   ("vezkc_impl", a.vezkc_impl),
   ("vezkc_impl_prev", a.vezkc_impl_prev),
   ("vezkc_deployer", a.vezkc_deployer),
   ("staking_rewards", a.staking_rewards),
   ("staking_rewards_impl", a.staking_rewards_impl),
   ("staking_rewards_impl_prev", a.staking_rewards_impl_prev),
   ("staking_rewards_deployer", a.staking_rewards_deployer),
   ("povw_minter", a.povw_minter),
   ("staking_minter", a.staking_minter),
   ("supply_calculator", a.supply_calculator),
   ("supply_calculator_impl", a.supply_calculator_impl),
   ("supply_calculator_admin", a.supply_calculator_admin),
   ("zkc_commit", a.zkc_commit),
   ("vezkc_commit", a.vezkc_commit),
   ("staking_rewards_commit", a.staking_rewards_commit),
   ("supply_calculator_commit", a.supply_calculator_commit),
   ("rpc_url", a.rpc_url),
   ("etherscan_api_key", a.etherscan_api_key)]

/-- `field.replace('_', '-')`: the on-disk (TOML) name of a logical
field name.  Since both the pattern and the replacement are single
characters, Python's `str.replace` is exactly a character map. -/
def tomlField (field : String) : String :=
  ⟨field.data.map (fun c => if c = '_' then '-' else c)⟩

/-- The ASCII whitespace characters stripped by Python's `str.strip()`
(space, tab, newline, carriage return, vertical tab, form feed; the
rarely relevant further Unicode whitespace is elided). -/
def isPySpace (c : Char) : Bool :=
  c = ' ' || c = '\t' || c = '\n' || c = '\x0d' || c = '\x0b' || c = '\x0c'

/-- `value.strip()`: remove leading and trailing whitespace. -/
def pyStrip (s : String) : String :=
  ⟨((s.data.dropWhile isPySpace).reverse.dropWhile isPySpace).reverse⟩

/-- The `updates` dict accumulated by the loop over `field_mappings`:
for each supplied (non-`None`) flag, in order, the hyphenated field name
paired with the whitespace-stripped value.  (The logical field names are
pairwise distinct, so the dict coincides with this list.) -/
def updatesOf (a : Args) : List (String × String) :=
  (field_mappings a).filterMap
    (fun p => p.2.map (fun v => (tomlField p.1, pyStrip v)))

/-- The loop body's mutations of the chain table, in order:
`doc['deployment'][chain_key][toml_field] = value` for each update. -/
def applyUpdates (chain : ChainTable) (ups : List (String × String)) : ChainTable :=
  ups.foldl (fun c p => setKey c p.1 (TomlVal.str p.2)) chain

/-- A Python single-quote character, used in the script's f-string
messages. -/
def pyq : String := String.singleton (Char.ofNat 39)

/-- `repr` of `list(doc['deployment'].keys())` as printed by Python
(keys are plain identifiers, so single-quoted). -/
def pyListRepr (ks : List String) : String :=
  "[" ++ String.intercalate ", " (ks.map (fun k => pyq ++ k ++ pyq)) ++ "]"

/-- The stderr line for a missing chain key. -/
def chainNotFoundMsg (ck : String) : String :=
  "❌ Chain key " ++ pyq ++ ck ++ pyq ++ " not found in deployment.toml"

/-- The stderr line listing the available chain keys. -/
def availableChainsMsg (ks : List String) : String :=
  "Available chains: " ++ pyListRepr ks

/-- The stderr line for a tomlkit parse error (the Python message also
appends the exception text, which the embedding elides). -/
def parseErrorMsg : String := "❌ Error parsing deployment.toml: "

/-- The display form of an updated value: values longer than 50
characters are abbreviated to the first 10 and last 10 characters joined
by an ellipsis (`value[:10] + "..." + value[-10:]`). -/
def displayValue (v : String) : String :=
  if v.length > 50 then
    ⟨v.data.take 10⟩ ++ "..." ++ ⟨v.data.drop (v.data.length - 10)⟩
  else v

/-- The stdout report when at least one field was updated. -/
def successReport (ck : String) (ups : List (String × String)) : List String :=
  ("✅ Updated deployment.toml for chain " ++ pyq ++ ck ++ pyq ++ ":")
    :: ups.map (fun p => "   " ++ p.1 ++ " = " ++ displayValue p.2)

/-- The stdout report when no flags were supplied. -/
def noUpdatesMsg : String := "ℹ️  No updates provided, deployment.toml unchanged"

/-- The observable outcome of one run: process exit code, the file state
afterwards, whether the file was (re)written, and the two output streams
as lists of printed lines. -/
structure RunResult where
  exitCode : Nat
  fileAfter : FileState
  wrote : Bool
  stdout : List String
  stderr : List String
deriving DecidableEq, Repr

/-- The script's `main`, as a pure function of the parsed arguments and
the state of `deployment.toml` in the working directory.  It mirrors the
source line by line: empty chain-key check, existence check, parse,
auto-creation of an empty `deployment` section, chain-key lookup, the
update loop, the single write, and the report. -/
def runMain (a : Args) (fs : FileState) : RunResult :=
  if a.chain_key = "" then
    ⟨1, fs, false, [], ["❌ Chain key cannot be empty"]⟩
  else
    match fs with
    | .absent =>
        ⟨1, .absent, false, [],
          ["❌ deployment.toml not found in current directory"]⟩
    | .invalid => ⟨1, .invalid, false, [], [parseErrorMsg]⟩
    | .parsed d =>
        -- `if 'deployment' not in doc: doc['deployment'] = tomlkit.table()`
        let dep : DeploymentTable := d.deployment?.getD []
        match getKey dep a.chain_key with
        | none =>
            -- sys.exit(1) before any write: the disk file keeps the
            -- original document (the auto-created empty section lives
            -- only in memory).
            ⟨1, .parsed d, false, [],
              [chainNotFoundMsg a.chain_key,
               availableChainsMsg (dep.map Prod.fst)]⟩
        | some chain =>
            let ups := updatesOf a
            let chain2 := applyUpdates chain ups
            let dep2 := setKey dep a.chain_key chain2
            let d2 : Doc := ⟨some dep2, d.others⟩
            let out :=
              if ups.isEmpty then [noUpdatesMsg]
              else successReport a.chain_key ups
            ⟨0, .parsed d2, true, out, []⟩

/-- The value of field `f` of chain `ck` in a file state (for stating
claims about persisted fields). -/
def persistedField (fs : FileState) (ck f : String) : Option TomlVal :=
  match fs with
  | .parsed d => (getKey (d.deployment?.getD []) ck).bind (fun c => getKey c f)
  | _ => none

/-- The hyphenated on-disk names of the 31 recognized fields, in
`field_mappings` order. -/
def hyphenNames : List String :=
  ["admin", "zkc-admin", "zkc-admin-2", "vezkc-admin", "vezkc-admin-2",
   "staking-rewards-admin", "staking-rewards-admin-2",
   "supply-calculator-admin-2", "zkc", "zkc-impl", "zkc-impl-prev",
   "zkc-deployer", "vezkc", "vezkc-impl", "vezkc-impl-prev",
   "vezkc-deployer", "staking-rewards", "staking-rewards-impl",
   "staking-rewards-impl-prev", "staking-rewards-deployer", "povw-minter",
   "staking-minter", "supply-calculator", "supply-calculator-impl",
   "supply-calculator-admin", "zkc-commit", "vezkc-commit",
   "staking-rewards-commit", "supply-calculator-commit", "rpc-url",
   "etherscan-api-key"]

/-! ### Concrete example inputs (for evaluating the claims) -/

/-- An example chain table for the `anvil` chain. -/
def exChain : ChainTable := [("zkc", .str "0x1"), ("owner", .other 7)]

/-- An example `deployment` section with two chains. -/
def exDep : DeploymentTable := [("anvil", exChain), ("sepolia", [("zkc", .str "0x2")])]

/-- An example parsed document with one unrelated top-level section. -/
def exDoc : Doc := ⟨some exDep, [("meta", .str "m")]⟩

/-- Example invocation: two flags supplied, one padded with whitespace. -/
def exArgs : Args := { chain_key := "anvil", admin := some "0xB", zkc := some " 0xAAA " }

/-- Example invocation with no update flags at all. -/
def exArgsNone : Args := {}

/-- Example invocation supplying a flag with an empty-string value. -/
def exArgsEmptyVal : Args := { admin := some "" }

/-- Example invocation with a chain key that the document lacks. -/
def exArgsMissing : Args := { chain_key := "mainnet" }

/-- A 60-character value. -/
def sixtyChars : String := "012345678901234567890123456789012345678901234567890123456789"

/-- Example invocation supplying a 60-character value. -/
def exArgsLong : Args := { zkc := some sixtyChars }

/-- Example invocation supplying a whitespace-only value. -/
def exArgsWs : Args := { rpc_url := some "   " }

/-! ### Association-list lemmas (dict semantics of `setKey`/`getKey`) -/

theorem getKey_setKey_self {α : Type} (l : List (String × α)) (k : String) (v : α) :
    getKey (setKey l k v) k = some v := by
  induction l with
  | nil => simp [setKey, getKey]
  | cons p rest ih =>
    obtain ⟨k', v'⟩ := p
    by_cases h : k' = k
    · simp [setKey, h, getKey]
    · simp [setKey, h, getKey, ih]

theorem getKey_setKey_ne {α : Type} (l : List (String × α)) (k k' : String) (v : α)
    (h : k' ≠ k) : getKey (setKey l k v) k' = getKey l k' := by
  induction l with
  | nil =>
    have hne : ¬ k = k' := fun he => h he.symm
    simp [setKey, getKey, hne]
  | cons p rest ih =>
    obtain ⟨k₀, v₀⟩ := p
    by_cases hk : k₀ = k
    · subst hk
      have hne : ¬ k₀ = k' := fun he => h he.symm
      simp [setKey, getKey, hne]
    · simp [setKey, hk, getKey, ih]

theorem setKey_eq_of_getKey {α : Type} (l : List (String × α)) (k : String) (v : α)
    (h : getKey l k = some v) : setKey l k v = l := by
  induction l with
  | nil => simp [getKey] at h
  | cons p rest ih =>
    obtain ⟨k₀, v₀⟩ := p
    by_cases hk : k₀ = k
    · subst hk
      simp [getKey] at h
      simp [setKey, h]
    · simp [getKey, hk] at h
      simp [setKey, hk, ih h]

theorem getKey_applyUpdates_not_mem (c : ChainTable) (ups : List (String × String))
    (k : String) (h : k ∉ ups.map Prod.fst) :
    getKey (applyUpdates c ups) k = getKey c k := by
  induction ups generalizing c with
  | nil => rfl
  | cons p rest ih =>
    simp only [List.map_cons, List.mem_cons, not_or] at h
    rw [applyUpdates, List.foldl_cons]
    rw [show List.foldl (fun c p => setKey c p.1 (TomlVal.str p.2)) (setKey c p.1 (TomlVal.str p.2)) rest = applyUpdates (setKey c p.1 (TomlVal.str p.2)) rest from rfl]
    rw [ih _ (by simpa using h.2)]
    exact getKey_setKey_ne _ _ _ _ h.1

theorem getKey_applyUpdates_mem (c : ChainTable) (ups : List (String × String))
    (hnd : (ups.map Prod.fst).Nodup) (k : String) (v : String) (h : (k, v) ∈ ups) :
    getKey (applyUpdates c ups) k = some (TomlVal.str v) := by
  induction ups generalizing c with
  | nil => simp at h
  | cons p rest ih =>
    simp only [List.map_cons, List.nodup_cons] at hnd
    rw [applyUpdates, List.foldl_cons]
    rw [show List.foldl (fun c p => setKey c p.1 (TomlVal.str p.2)) (setKey c p.1 (TomlVal.str p.2)) rest = applyUpdates (setKey c p.1 (TomlVal.str p.2)) rest from rfl]
    rcases List.mem_cons.mp h with he | hm
    · subst he
      rw [getKey_applyUpdates_not_mem _ _ _ hnd.1]
      exact getKey_setKey_self _ _ _
    · exact ih _ hnd.2 hm

theorem applyUpdates_eq_of_getKey (c : ChainTable) (ups : List (String × String))
    (h : ∀ p ∈ ups, getKey c p.1 = some (TomlVal.str p.2)) :
    applyUpdates c ups = c := by
  induction ups generalizing c with
  | nil => rfl
  | cons p rest ih =>
    rw [applyUpdates, List.foldl_cons]
    rw [show List.foldl (fun c p => setKey c p.1 (TomlVal.str p.2)) (setKey c p.1 (TomlVal.str p.2)) rest = applyUpdates (setKey c p.1 (TomlVal.str p.2)) rest from rfl]
    rw [setKey_eq_of_getKey _ _ _ (h p (List.mem_cons_self _ _))]
    exact ih c (fun q hq => h q (List.mem_cons_of_mem _ hq))

theorem applyUpdates_applyUpdates (c : ChainTable) (ups : List (String × String))
    (hnd : (ups.map Prod.fst).Nodup) :
    applyUpdates (applyUpdates c ups) ups = applyUpdates c ups :=
  applyUpdates_eq_of_getKey _ _
    (fun p hp => getKey_applyUpdates_mem c ups hnd p.1 p.2 hp)

/-! ### Facts about the field names and the update set -/

theorem map_tomlField_field_mappings (a : Args) :
    (field_mappings a).map (fun p => tomlField p.1) = hyphenNames := rfl

theorem hyphenNames_nodup : hyphenNames.Nodup := by decide

theorem updatesOf_keys_sublist (a : Args) :
    ((updatesOf a).map Prod.fst).Sublist
      ((field_mappings a).map (fun p => tomlField p.1)) := by
  rw [updatesOf]
  generalize field_mappings a = l
  induction l with
  | nil => simp
  | cons p rest ih =>
    cases h : p.2 with
    | none =>
      simp only [List.filterMap_cons, h, Option.map_none, List.map_cons]
      exact ih.cons _
    | some v =>
      simp only [List.filterMap_cons, h, Option.map_some, List.map_cons]
      exact ih.cons₂ _

theorem updatesOf_keys_nodup (a : Args) : ((updatesOf a).map Prod.fst).Nodup := by
  have h := updatesOf_keys_sublist a
  rw [map_tomlField_field_mappings] at h
  exact h.nodup hyphenNames_nodup

theorem mem_updatesOf_of_some (a : Args) (f v : String)
    (h : (f, some v) ∈ field_mappings a) :
    (tomlField f, pyStrip v) ∈ updatesOf a :=
  List.mem_filterMap.mpr ⟨(f, some v), h, rfl⟩

theorem tomlField_inj_on_field_mappings (a : Args) (p q : String × Option String)
    (hp : p ∈ field_mappings a) (hq : q ∈ field_mappings a)
    (h : tomlField p.1 = tomlField q.1) : p = q := by
  have hnd : ((field_mappings a).map (fun p => tomlField p.1)).Nodup := by
    rw [map_tomlField_field_mappings]; exact hyphenNames_nodup
  exact List.inj_on_of_nodup_map hnd hp hq h

theorem not_mem_updatesOf_keys_of_none (a : Args) (f : String)
    (h : (f, none) ∈ field_mappings a) :
    tomlField f ∉ (updatesOf a).map Prod.fst := by
  intro hmem
  obtain ⟨q, hq, hqf⟩ := List.mem_map.mp hmem
  obtain ⟨p, hp, hpq⟩ := List.mem_filterMap.mp hq
  cases hv : p.2 with
  | none => rw [hv] at hpq; simp at hpq
  | some v =>
    rw [hv] at hpq
    have hpq2 : (tomlField p.1, pyStrip v) = q := by simpa using hpq
    have hkey : tomlField p.1 = tomlField f := by
      rw [← hqf, ← hpq2]
    have := tomlField_inj_on_field_mappings a p (f, none) hp h hkey
    rw [this] at hv
    simp at hv

theorem updatesOf_eq_nil (a : Args) (h : ∀ p ∈ field_mappings a, p.2 = none) :
    updatesOf a = [] := by
  rw [updatesOf]
  rw [List.filterMap_eq_nil_iff]
  intro p hp
  rw [h p hp]
  rfl

/-! ### Characterization of the run outcomes -/

theorem runMain_parsed_found (a : Args) (d : Doc) (dep : DeploymentTable)
    (chain : ChainTable) (h1 : a.chain_key ≠ "") (h2 : d.deployment? = some dep)
    (h3 : getKey dep a.chain_key = some chain) :
    runMain a (.parsed d) =
      ⟨0,
       .parsed ⟨some (setKey dep a.chain_key (applyUpdates chain (updatesOf a))),
                d.others⟩,
       true,
       if (updatesOf a).isEmpty then [noUpdatesMsg]
       else successReport a.chain_key (updatesOf a),
       []⟩ := by
  simp [runMain, h1, h2, h3]

theorem runMain_empty_key (a : Args) (fs : FileState) (h : a.chain_key = "") :
    runMain a fs = ⟨1, fs, false, [], ["❌ Chain key cannot be empty"]⟩ := by
  rw [runMain.eq_def, if_pos h]

theorem runMain_absent (a : Args) (h : a.chain_key ≠ "") :
    runMain a .absent =
      ⟨1, .absent, false, [],
       ["❌ deployment.toml not found in current directory"]⟩ := by
  simp [runMain, h]

theorem runMain_invalid (a : Args) (h : a.chain_key ≠ "") :
    runMain a .invalid = ⟨1, .invalid, false, [], [parseErrorMsg]⟩ := by
  simp [runMain, h]

theorem runMain_chain_missing (a : Args) (d : Doc) (h : a.chain_key ≠ "")
    (hg : getKey (d.deployment?.getD []) a.chain_key = none) :
    runMain a (.parsed d) =
      ⟨1, .parsed d, false, [],
       [chainNotFoundMsg a.chain_key,
        availableChainsMsg ((d.deployment?.getD []).map Prod.fst)]⟩ := by
  simp [runMain, h, hg]

theorem runMain_found_exitCode (a : Args) (d : Doc) (dep : DeploymentTable)
    (chain : ChainTable) (h1 : a.chain_key ≠ "") (h2 : d.deployment? = some dep)
    (h3 : getKey dep a.chain_key = some chain) :
    (runMain a (.parsed d)).exitCode = 0 := by
  rw [runMain_parsed_found a d dep chain h1 h2 h3]

theorem runMain_found_fileAfter (a : Args) (d : Doc) (dep : DeploymentTable)
    (chain : ChainTable) (h1 : a.chain_key ≠ "") (h2 : d.deployment? = some dep)
    (h3 : getKey dep a.chain_key = some chain) :
    (runMain a (.parsed d)).fileAfter =
      .parsed ⟨some (setKey dep a.chain_key (applyUpdates chain (updatesOf a))),
               d.others⟩ := by
  rw [runMain_parsed_found a d dep chain h1 h2 h3]

theorem runMain_found_stdout (a : Args) (d : Doc) (dep : DeploymentTable)
    (chain : ChainTable) (h1 : a.chain_key ≠ "") (h2 : d.deployment? = some dep)
    (h3 : getKey dep a.chain_key = some chain) :
    (runMain a (.parsed d)).stdout =
      if (updatesOf a).isEmpty then [noUpdatesMsg]
      else successReport a.chain_key (updatesOf a) := by
  rw [runMain_parsed_found a d dep chain h1 h2 h3]

theorem persistedField_parsed_eq (d : Doc) (dep : DeploymentTable) (chain : ChainTable)
    (ck : String) (h2 : d.deployment? = some dep) (h3 : getKey dep ck = some chain)
    (f : String) : persistedField (.parsed d) ck f = getKey chain f := by
  simp [persistedField, h2, h3]

theorem persistedField_after_run (a : Args) (d : Doc) (dep : DeploymentTable)
    (chain : ChainTable) (h1 : a.chain_key ≠ "") (h2 : d.deployment? = some dep)
    (h3 : getKey dep a.chain_key = some chain) (f : String) :
    persistedField (runMain a (.parsed d)).fileAfter a.chain_key f =
      getKey (applyUpdates chain (updatesOf a)) f := by
  rw [runMain_found_fileAfter a d dep chain h1 h2 h3]
  simp [persistedField, getKey_setKey_self]

theorem chainNotFoundMsg_split (ck : String) :
    chainNotFoundMsg ck =
      "❌" ++ (" Chain key " ++ (pyq ++ (ck ++ (pyq ++ " not found in deployment.toml")))) := by
  rw [chainNotFoundMsg,
      show ("❌ Chain key " : String) = "❌" ++ " Chain key " from rfl]
  simp only [String.append_assoc]

theorem updatesOf_isEmpty_false (a : Args) (f v : String) (h : (f, v) ∈ updatesOf a) :
    (updatesOf a).isEmpty = false := by
  cases hu : updatesOf a with
  | nil => rw [hu] at h; simp at h
  | cons x xs => rfl

/-! ### The claims -/

/-- C1: on a well-formed document whose `deployment` section contains the
chain key, a run with a subset of the flags supplied succeeds, updates
exactly the fields of `deployment[chain_key]` named by the supplied flags
(hyphenated), and leaves every other field of that chain, every other
chain entry, and every other section of the document unchanged. -/
theorem subset_update_exact_frame (a : Args) (d : Doc) (dep : DeploymentTable)
    (chain : ChainTable) (h1 : a.chain_key ≠ "") (h2 : d.deployment? = some dep)
    (h3 : getKey dep a.chain_key = some chain) :
    ∃ dep2 chain2,
      (runMain a (.parsed d)).exitCode = 0 ∧
      (runMain a (.parsed d)).fileAfter = .parsed ⟨some dep2, d.others⟩ ∧
      getKey dep2 a.chain_key = some chain2 ∧
      (∀ k, k ≠ a.chain_key → getKey dep2 k = getKey dep k) ∧
      (∀ f v, (f, v) ∈ updatesOf a → getKey chain2 f = some (TomlVal.str v)) ∧
      (∀ f, f ∉ (updatesOf a).map Prod.fst → getKey chain2 f = getKey chain f) :=
  ⟨setKey dep a.chain_key (applyUpdates chain (updatesOf a)),
   applyUpdates chain (updatesOf a),
   runMain_found_exitCode a d dep chain h1 h2 h3,
   runMain_found_fileAfter a d dep chain h1 h2 h3,
   getKey_setKey_self _ _ _,
   fun _ hk => getKey_setKey_ne _ _ _ _ hk,
   fun f v hv => getKey_applyUpdates_mem _ _ (updatesOf_keys_nodup a) f v hv,
   fun _ hf => getKey_applyUpdates_not_mem _ _ _ hf⟩

/-- Witness for C1 at a concrete invocation and document. -/
theorem subset_update_exact_frame_instance :
    ∃ dep2 chain2,
      (runMain exArgs (.parsed exDoc)).exitCode = 0 ∧
      (runMain exArgs (.parsed exDoc)).fileAfter = .parsed ⟨some dep2, exDoc.others⟩ ∧
      getKey dep2 exArgs.chain_key = some chain2 ∧
      (∀ k, k ≠ exArgs.chain_key → getKey dep2 k = getKey exDep k) ∧
      (∀ f v, (f, v) ∈ updatesOf exArgs → getKey chain2 f = some (TomlVal.str v)) ∧
      (∀ f, f ∉ (updatesOf exArgs).map Prod.fst → getKey chain2 f = getKey exChain f) :=
  subset_update_exact_frame exArgs exDoc exDep exChain (by decide) rfl (by decide)

/-- C2: each supplied (non-null) flag has its value stripped of leading
and trailing whitespace and stored in `deployment[chain_key]` under the
hyphenated form of its logical name, overwriting any prior value. -/
theorem supplied_flag_sets_trimmed_value (a : Args) (d : Doc)
    (dep : DeploymentTable) (chain : ChainTable) (f v : String)
    (h1 : a.chain_key ≠ "") (h2 : d.deployment? = some dep)
    (h3 : getKey dep a.chain_key = some chain)
    (hf : (f, some v) ∈ field_mappings a) :
    (tomlField f, pyStrip v) ∈ updatesOf a ∧
    persistedField (runMain a (.parsed d)).fileAfter a.chain_key (tomlField f) =
      some (TomlVal.str (pyStrip v)) := by
  have hmem := mem_updatesOf_of_some a f v hf
  refine ⟨hmem, ?_⟩
  rw [persistedField_after_run a d dep chain h1 h2 h3]
  exact getKey_applyUpdates_mem _ _ (updatesOf_keys_nodup a) _ _ hmem

/-- Witness for C2: the padded value `" 0xAAA "` is stored trimmed under
`zkc`, overwriting the prior value `"0x1"`. -/
theorem supplied_flag_sets_trimmed_value_instance :
    (tomlField "zkc", pyStrip " 0xAAA ") ∈ updatesOf exArgs ∧
    persistedField (runMain exArgs (.parsed exDoc)).fileAfter "anvil"
      (tomlField "zkc") = some (TomlVal.str (pyStrip " 0xAAA ")) :=
  supplied_flag_sets_trimmed_value exArgs exDoc exDep exChain "zkc" " 0xAAA "
    (by decide) rfl (by decide) (by decide)

/-- C3 counterexample: a flag supplied with the empty-string value does
produce an update pair and does modify the field (the code only tests
`value is not None`), contradicting the claim that empty flags produce
no update. -/
theorem empty_value_flag_updates_cex :
    updatesOf exArgsEmptyVal = [("admin", "")] ∧
    persistedField (.parsed exDoc) "anvil" "admin" = none ∧
    persistedField (runMain exArgsEmptyVal (.parsed exDoc)).fileAfter "anvil"
      "admin" = some (TomlVal.str "") := by
  decide

/-- C3 (amended): the update pairs are derived exactly from the supplied
(non-null) flags: a flag that is not supplied produces no update pair
and its field is not modified.  (A flag supplied with an empty or
whitespace-only string still counts as supplied and sets the field to
the empty string.) -/
theorem updates_only_from_supplied_flags (a : Args) (d : Doc)
    (dep : DeploymentTable) (chain : ChainTable) (f : String)
    (h1 : a.chain_key ≠ "") (h2 : d.deployment? = some dep)
    (h3 : getKey dep a.chain_key = some chain)
    (hf : (f, none) ∈ field_mappings a) :
    tomlField f ∉ (updatesOf a).map Prod.fst ∧
    persistedField (runMain a (.parsed d)).fileAfter a.chain_key (tomlField f) =
      persistedField (.parsed d) a.chain_key (tomlField f) := by
  have hn := not_mem_updatesOf_keys_of_none a f hf
  refine ⟨hn, ?_⟩
  rw [persistedField_after_run a d dep chain h1 h2 h3,
      persistedField_parsed_eq d dep chain a.chain_key h2 h3]
  exact getKey_applyUpdates_not_mem _ _ _ hn

/-- Witness for the amended C3: the unsupplied `vezkc` flag leaves the
`vezkc` field untouched. -/
theorem updates_only_from_supplied_flags_instance :
    tomlField "vezkc" ∉ (updatesOf exArgs).map Prod.fst ∧
    persistedField (runMain exArgs (.parsed exDoc)).fileAfter "anvil"
      (tomlField "vezkc") = persistedField (.parsed exDoc) "anvil" (tomlField "vezkc") :=
  updates_only_from_supplied_flags exArgs exDoc exDep exChain "vezkc"
    (by decide) rfl (by decide) (by decide)

/-- C4: every failing run (non-zero exit) leaves the file exactly as it
was and performs no write, and reports a message with the `❌` mark to
the error stream; in particular a parse failure of the existing file
makes the run fail.  The single write happens only on the all-success
path, so either all supplied fields are persisted or none are. -/
theorem failing_run_reports_and_writes_nothing (a : Args) (fs : FileState) :
    ((runMain a fs).exitCode ≠ 0 →
      (runMain a fs).fileAfter = fs ∧ (runMain a fs).wrote = false ∧
      ∃ m rest, m ∈ (runMain a fs).stderr ∧ m = "❌" ++ rest) ∧
    (a.chain_key ≠ "" → (runMain a .invalid).exitCode ≠ 0) := by
  constructor
  · intro hne
    by_cases hck : a.chain_key = ""
    · rw [runMain_empty_key a fs hck]
      exact ⟨rfl, rfl, "❌ Chain key cannot be empty",
             " Chain key cannot be empty", by simp, rfl⟩
    · cases fs with
      | absent =>
        rw [runMain_absent a hck]
        exact ⟨rfl, rfl, "❌ deployment.toml not found in current directory",
               " deployment.toml not found in current directory", by simp, rfl⟩
      | invalid =>
        rw [runMain_invalid a hck]
        exact ⟨rfl, rfl, parseErrorMsg,
               " Error parsing deployment.toml: ", by simp, rfl⟩
      | parsed d =>
        cases hg : getKey (d.deployment?.getD []) a.chain_key with
        | none =>
          rw [runMain_chain_missing a d hck hg]
          refine ⟨rfl, rfl, chainNotFoundMsg a.chain_key,
                  " Chain key " ++ (pyq ++ (a.chain_key ++
                    (pyq ++ " not found in deployment.toml"))), by simp, ?_⟩
          exact chainNotFoundMsg_split a.chain_key
        | some chain =>
          cases hdep : d.deployment? with
          | none => rw [hdep] at hg; simp [getKey] at hg
          | some dep =>
            rw [hdep] at hg
            simp only [Option.getD_some] at hg
            rw [runMain_found_exitCode a d dep chain hck hdep hg] at hne
            exact absurd rfl hne
  · intro h
    rw [runMain_invalid a h]
    simp

/-- Witness for C4: a run on an unparseable file fails, writes nothing,
and reports a `❌`-marked message. -/
theorem failing_run_reports_and_writes_nothing_instance :
    (runMain exArgs .invalid).fileAfter = .invalid ∧
    (runMain exArgs .invalid).wrote = false ∧
    ∃ m rest, m ∈ (runMain exArgs .invalid).stderr ∧ m = "❌" ++ rest :=
  (failing_run_reports_and_writes_nothing exArgs .invalid).1
    ((failing_run_reports_and_writes_nothing exArgs .invalid).2 (by decide))

/-- C5: when the `deployment` section lacks the chain key (also when the
section itself is absent and auto-created empty in memory), the run
exits non-zero without writing, and the error stream lists the available
chain keys. -/
theorem missing_chain_key_reports_available (a : Args) (d : Doc)
    (h1 : a.chain_key ≠ "")
    (hg : getKey (d.deployment?.getD []) a.chain_key = none) :
    (runMain a (.parsed d)).exitCode = 1 ∧
    (runMain a (.parsed d)).fileAfter = .parsed d ∧
    (runMain a (.parsed d)).wrote = false ∧
    (runMain a (.parsed d)).stderr =
      [chainNotFoundMsg a.chain_key,
       availableChainsMsg ((d.deployment?.getD []).map Prod.fst)] := by
  rw [runMain_chain_missing a d h1 hg]
  exact ⟨rfl, rfl, rfl, rfl⟩

/-- Witness for C5: the chain key `mainnet` is absent from the example
document, and the two available chains are reported. -/
theorem missing_chain_key_reports_available_instance :
    (runMain exArgsMissing (.parsed exDoc)).exitCode = 1 ∧
    (runMain exArgsMissing (.parsed exDoc)).fileAfter = .parsed exDoc ∧
    (runMain exArgsMissing (.parsed exDoc)).wrote = false ∧
    (runMain exArgsMissing (.parsed exDoc)).stderr =
      [chainNotFoundMsg "mainnet", availableChainsMsg ["anvil", "sepolia"]] :=
  missing_chain_key_reports_available exArgsMissing exDoc (by decide) (by decide)

/-- C6: a run with no update flags supplied reports that no change was
made, exits with status 0, still rewrites the file, and leaves every
field value of the document unchanged. -/
theorem no_flags_noop_rewrite (a : Args) (d : Doc) (dep : DeploymentTable)
    (chain : ChainTable) (h1 : a.chain_key ≠ "") (h2 : d.deployment? = some dep)
    (h3 : getKey dep a.chain_key = some chain)
    (hnone : ∀ p ∈ field_mappings a, p.2 = none) :
    runMain a (.parsed d) = ⟨0, .parsed d, true, [noUpdatesMsg], []⟩ := by
  obtain ⟨dd, oo⟩ := d
  have h2' : dd = some dep := h2
  subst h2'
  have hu : updatesOf a = [] := updatesOf_eq_nil a hnone
  rw [runMain_parsed_found a ⟨some dep, oo⟩ dep chain h1 rfl h3, hu]
  rw [show applyUpdates chain [] = chain from rfl,
      setKey_eq_of_getKey dep a.chain_key chain h3]
  rfl

/-- Witness for C6: the default invocation on the example document is a
reported no-op that still rewrites the file. -/
theorem no_flags_noop_rewrite_instance :
    runMain exArgsNone (.parsed exDoc) = ⟨0, .parsed exDoc, true, [noUpdatesMsg], []⟩ :=
  no_flags_noop_rewrite exArgsNone exDoc exDep exChain (by decide) rfl (by decide)
    (by decide)

/-- C7: each updated field is reported on standard output with its
display value; a stored value longer than 50 characters is displayed as
its first 10 characters, an ellipsis, and its last 10 characters, while
the persisted value is the full untruncated string. -/
theorem long_value_displayed_abbreviated (a : Args) (d : Doc)
    (dep : DeploymentTable) (chain : ChainTable) (f v : String)
    (h1 : a.chain_key ≠ "") (h2 : d.deployment? = some dep)
    (h3 : getKey dep a.chain_key = some chain) (hv : (f, v) ∈ updatesOf a) :
    ("   " ++ f ++ " = " ++ displayValue v) ∈ (runMain a (.parsed d)).stdout ∧
    persistedField (runMain a (.parsed d)).fileAfter a.chain_key f =
      some (TomlVal.str v) ∧
    (v.length > 50 →
      displayValue v =
        ⟨v.data.take 10⟩ ++ "..." ++ ⟨v.data.drop (v.data.length - 10)⟩) := by
  refine ⟨?_, ?_, ?_⟩
  · rw [runMain_found_stdout a d dep chain h1 h2 h3,
        if_neg (by rw [updatesOf_isEmpty_false a f v hv]; exact Bool.false_ne_true)]
    exact List.mem_cons_of_mem _ (List.mem_map.mpr ⟨(f, v), hv, rfl⟩)
  · rw [persistedField_after_run a d dep chain h1 h2 h3]
    exact getKey_applyUpdates_mem _ _ (updatesOf_keys_nodup a) f v hv
  · intro hlen
    rw [displayValue, if_pos hlen]

/-- Witness for C7: a 60-character value is displayed abbreviated but
persisted in full. -/
theorem long_value_displayed_abbreviated_instance :
    ("   " ++ "zkc" ++ " = " ++ displayValue sixtyChars) ∈
      (runMain exArgsLong (.parsed exDoc)).stdout ∧
    persistedField (runMain exArgsLong (.parsed exDoc)).fileAfter "anvil" "zkc" =
      some (TomlVal.str sixtyChars) ∧
    (sixtyChars.length > 50 →
      displayValue sixtyChars =
        ⟨sixtyChars.data.take 10⟩ ++ "..." ++
          ⟨sixtyChars.data.drop (sixtyChars.data.length - 10)⟩) :=
  long_value_displayed_abbreviated exArgsLong exDoc exDep exChain "zkc" sixtyChars
    (by decide) rfl (by decide) (by decide)

/-- C8: when the config file is absent the run exits non-zero, reports a
`❌`-marked message to the error stream, and creates no file. -/
theorem missing_file_fails_without_create (a : Args) :
    (runMain a .absent).exitCode = 1 ∧
    (runMain a .absent).fileAfter = .absent ∧
    (runMain a .absent).wrote = false ∧
    ∃ m rest, m ∈ (runMain a .absent).stderr ∧ m = "❌" ++ rest := by
  by_cases hck : a.chain_key = ""
  · rw [runMain_empty_key a .absent hck]
    exact ⟨rfl, rfl, rfl, "❌ Chain key cannot be empty",
           " Chain key cannot be empty", by simp, rfl⟩
  · rw [runMain_absent a hck]
    exact ⟨rfl, rfl, rfl, "❌ deployment.toml not found in current directory",
           " deployment.toml not found in current directory", by simp, rfl⟩

/-- C9: a successful run is idempotent: re-running with the same flags
and values on the resulting file leaves the on-disk document exactly as
after the first run. -/
theorem rerun_same_flags_idempotent (a : Args) (d : Doc) (dep : DeploymentTable)
    (chain : ChainTable) (h1 : a.chain_key ≠ "") (h2 : d.deployment? = some dep)
    (h3 : getKey dep a.chain_key = some chain) :
    (runMain a (.parsed d)).exitCode = 0 ∧
    (runMain a ((runMain a (.parsed d)).fileAfter)).fileAfter =
      (runMain a (.parsed d)).fileAfter := by
  refine ⟨runMain_found_exitCode a d dep chain h1 h2 h3, ?_⟩
  rw [runMain_found_fileAfter a d dep chain h1 h2 h3]
  rw [runMain_found_fileAfter a
        ⟨some (setKey dep a.chain_key (applyUpdates chain (updatesOf a))), d.others⟩
        (setKey dep a.chain_key (applyUpdates chain (updatesOf a)))
        (applyUpdates chain (updatesOf a)) h1 rfl (getKey_setKey_self _ _ _)]
  rw [applyUpdates_applyUpdates chain (updatesOf a) (updatesOf_keys_nodup a),
      setKey_eq_of_getKey _ _ _ (getKey_setKey_self dep a.chain_key
        (applyUpdates chain (updatesOf a)))]

/-- Witness for C9 at a concrete invocation and document. -/
theorem rerun_same_flags_idempotent_instance :
    (runMain exArgs (.parsed exDoc)).exitCode = 0 ∧
    (runMain exArgs ((runMain exArgs (.parsed exDoc)).fileAfter)).fileAfter =
      (runMain exArgs (.parsed exDoc)).fileAfter :=
  rerun_same_flags_idempotent exArgs exDoc exDep exChain (by decide) rfl (by decide)

/-- C10: a flag supplied with a whitespace-only (or empty) value makes
the run succeed, stores the empty string in the field, and includes the
field in the standard-output report. -/
theorem whitespace_value_stored_empty (a : Args) (d : Doc)
    (dep : DeploymentTable) (chain : ChainTable) (f v : String)
    (h1 : a.chain_key ≠ "") (h2 : d.deployment? = some dep)
    (h3 : getKey dep a.chain_key = some chain)
    (hf : (f, some v) ∈ field_mappings a) (hws : pyStrip v = "") :
    (runMain a (.parsed d)).exitCode = 0 ∧
    persistedField (runMain a (.parsed d)).fileAfter a.chain_key (tomlField f) =
      some (TomlVal.str "") ∧
    ("   " ++ tomlField f ++ " = " ++ displayValue "") ∈
      (runMain a (.parsed d)).stdout := by
  have hmem : (tomlField f, "") ∈ updatesOf a := by
    have h := mem_updatesOf_of_some a f v hf
    rwa [hws] at h
  refine ⟨runMain_found_exitCode a d dep chain h1 h2 h3, ?_, ?_⟩
  · rw [persistedField_after_run a d dep chain h1 h2 h3]
    exact getKey_applyUpdates_mem _ _ (updatesOf_keys_nodup a) _ _ hmem
  · rw [runMain_found_stdout a d dep chain h1 h2 h3,
        if_neg (by rw [updatesOf_isEmpty_false a (tomlField f) "" hmem];
                   exact Bool.false_ne_true)]
    exact List.mem_cons_of_mem _ (List.mem_map.mpr ⟨(tomlField f, ""), hmem, rfl⟩)

/-- Witness for C10: a whitespace-only `--rpc-url` value is stored as
the empty string and reported. -/
theorem whitespace_value_stored_empty_instance :
    (runMain exArgsWs (.parsed exDoc)).exitCode = 0 ∧
    persistedField (runMain exArgsWs (.parsed exDoc)).fileAfter "anvil"
      (tomlField "rpc_url") = some (TomlVal.str "") ∧
    ("   " ++ tomlField "rpc_url" ++ " = " ++ displayValue "") ∈
      (runMain exArgsWs (.parsed exDoc)).stdout :=
  whitespace_value_stored_empty exArgsWs exDoc exDep exChain "rpc_url" "   "
    (by decide) rfl (by decide) (by decide) (by decide)

end UpdateDeploymentToml
